import Mathlib

/-!
Shallow embedding of the Automaker deployment pipeline engine: the
`DeploymentService` orchestrator, its step executor (`executeCommand`),
health probe (`waitForUrl`), per-project configuration store and E2E
output parsing, together with proofs of the specified properties.

Effects are made explicit: the filesystem is a map from paths to stored
configuration documents, every spawned subprocess's behaviour is given by
an oracle (`ProcOutcome` / `StepRun` / `Oracle`), and events emitted
through the event sink are collected in a list, in emission order.
-/

namespace Automaker

/-- Outcome of one spawned subprocess, as observed by `executeCommand`'s
handlers: a `close` with an exit code (`none` models a `null` code, i.e.
killed by a signal), a spawn `error`, or no exit within the configured
timeout.  The stdout (and for `close` also stderr) captured up to that
moment is included. -/
inductive ProcOutcome where
  | exited (code : Option Int) (stdout stderr : String)
  | spawnErr (msg : String) (stdout : String)
  | timedOut (stdout : String)
deriving DecidableEq, Repr

/-- The object `executeCommand` resolves to. -/
structure CmdResult where
  success : Bool
  output : String
  error : Option String
deriving DecidableEq, Repr

/-- Rendering of `Exit code: ${code}` where `code : number | null`. -/
def showExitCode : Option Int → String
  | some n => toString n
  | none => "null"

/-- `executeCommand` (src/unnamed/part_004, lines 111-166) as a pure
function of the subprocess outcome.  Totality of this function models
that the promise always resolves and never rejects. -/
def executeCommand (timeoutMs : Nat) : ProcOutcome → CmdResult
  | .exited code sout serr =>
      { success := code == some 0
        output := sout ++ (if serr = "" then "" else "\n[stderr]\n" ++ serr)
        error := if code == some 0 then none
                 else some ("Exit code: " ++ showExitCode code) }
  | .spawnErr msg sout => { success := false, output := sout, error := some msg }
  | .timedOut sout =>
      { success := false
        output := sout
        error := some ("Command timed out after " ++ toString timeoutMs ++ "ms") }

/-- Signals `executeCommand` sends to the child for a given outcome:
the timeout handler runs `child.kill('SIGTERM')`, terminating the
subprocess, before resolving; no other path signals the child. -/
def killSignals : ProcOutcome → List String
  | .timedOut _ => ["SIGTERM"]
  | _ => []

/-- JavaScript `x || d` for an optional numeric field: both an absent
field and an explicit `0` fall back to the default. -/
def orDefault (v : Option Nat) (d : Nat) : Nat :=
  match v with
  | some n => if n = 0 then d else n
  | none => d

/-! ## Health probe (`waitForUrl`) -/

/-- `response.ok || response.status < 500`: the reachability test applied
to a received HTTP status. -/
def respReachable (s : Nat) : Bool :=
  (200 ≤ s && s < 300) || s < 500

/-- The polling loop of `waitForUrl`.  `probe k` is the outcome of the
`k`-th GET (`some s` = a response with status `s`, `none` = the fetch
threw, e.g. connection refused — caught and retried), `dur k` its
duration in ms.  `t` is the elapsed time when the loop's deadline test
runs, so attempt `k` is issued iff `t < timeoutMs` at that moment; after
a non-qualifying attempt the loop sleeps `intervalMs`.  Fuel makes the
recursion structural; `waitForUrl` below supplies enough fuel whenever
`intervalMs ≥ 1`. -/
def waitAux (probe : Nat → Option Nat) (dur : Nat → Nat)
    (timeoutMs intervalMs : Nat) : Nat → Nat → Nat → Option Bool
  | 0, _, _ => none
  | fuel + 1, t, k =>
    if t < timeoutMs then
      match probe k with
      | some s =>
          if respReachable s then some true
          else waitAux probe dur timeoutMs intervalMs fuel (t + dur k + intervalMs) (k + 1)
      | none => waitAux probe dur timeoutMs intervalMs fuel (t + dur k + intervalMs) (k + 1)
    else some false

/-- `waitForUrl(url, timeoutMs, intervalMs)` (src/unnamed/part_004,
lines 86-106), with the URL abstracted into the probe oracle. -/
def waitForUrl (probe : Nat → Option Nat) (dur : Nat → Nat)
    (timeoutMs intervalMs : Nat) : Bool :=
  (waitAux probe dur timeoutMs intervalMs (timeoutMs + 1) 0 0).getD false

/-- The elapsed time at which attempt `k` of the probe loop is issued
(the loop's deadline check for attempt `k` sees this clock value),
starting from clock `t` at attempt index `k0`. -/
def attemptTimeFrom (dur : Nat → Nat) (intervalMs : Nat) : Nat → Nat → Nat → Nat
  | t, _, 0 => t
  | t, k0, j + 1 => attemptTimeFrom dur intervalMs (t + dur k0 + intervalMs) (k0 + 1) j

/-- Issue time of the `k`-th probe attempt, counted from the start. -/
def attemptTime (dur : Nat → Nat) (intervalMs : Nat) (k : Nat) : Nat :=
  attemptTimeFrom dur intervalMs 0 0 k

/-- Whether the `k`-th probe attempt receives a qualifying response. -/
def probeQualifies (probe : Nat → Option Nat) (k : Nat) : Bool :=
  match probe k with
  | some s => respReachable s
  | none => false

/-! ## E2E count parsing

`runE2ETests` matches `/(\d+) passed.*?(\d+) failed.*?(\d+) skipped/i`
against the captured output.  The functions below implement exactly the
leftmost match of that regex: `.` does not match line terminators, the
lazy gaps scan left to right, `\d+` is a maximal digit run (a shorter
run is never useful because each run is followed by a literal space in
the pattern), and the literals are compared case-insensitively. -/

/-- JavaScript line terminators, which `.` does not match. -/
def isLineTerm (c : Char) : Bool :=
  c = '\n' || c = '\r' || c = '\u2028' || c = '\u2029'

/-- Case-insensitive literal consumption: consume `pat` from the front of
the input, comparing lowercased characters. -/
def ciConsume : List Char → List Char → Option (List Char)
  | [], cs => some cs
  | _, [] => none
  | p :: ps, c :: cs => if c.toLower = p.toLower then ciConsume ps cs else none

/-- Maximal digit prefix (the `\d+` capture) and the remainder. -/
def takeDigits : List Char → List Char × List Char
  | [] => ([], [])
  | c :: cs =>
    if c.isDigit then
      let r := takeDigits cs
      (c :: r.1, r.2)
    else ([], c :: cs)

/-- `parseInt(s, 10)` on a digit run. -/
def digitsToNat (ds : List Char) : Nat :=
  ds.foldl (fun n c => 10 * n + (c.toNat - '0'.toNat)) 0

/-- Scan for `\d+` followed by the literal `word` (case-insensitive),
moving right one character at a time (the lazy `.*?`), without crossing a
line terminator.  Returns the parsed number and the rest of the input. -/
def searchNum (word : List Char) : List Char → Option (Nat × List Char)
  | [] => none
  | c :: cs =>
    if isLineTerm c then none
    else if c.isDigit then
      let d := takeDigits (c :: cs)
      match ciConsume word d.2 with
      | some r2 => some (digitsToNat d.1, r2)
      | none => searchNum word cs
    else searchNum word cs

/-- One anchored match attempt of the whole pattern at the head of the
input (the head must start a digit run). -/
def tryCountsAt (cs : List Char) : Option (Nat × Nat × Nat) :=
  match cs with
  | [] => none
  | c :: _ =>
    if c.isDigit then
      let d := takeDigits cs
      match ciConsume " passed".data d.2 with
      | none => none
      | some r1 =>
        match searchNum " failed".data r1 with
        | none => none
        | some mr =>
          match searchNum " skipped".data mr.2 with
          | none => none
          | some kr => some (digitsToNat d.1, mr.1, kr.1)
    else none

/-- Leftmost match: try every start position left to right. -/
def matchCountsAux : List Char → Option (Nat × Nat × Nat)
  | [] => none
  | c :: cs =>
    match tryCountsAt (c :: cs) with
    | some v => some v
    | none => matchCountsAux cs

/-- The pass/fail/skip counts the Playwright-format regex extracts from a
command's output, if it matches anywhere. -/
def matchCounts (s : String) : Option (Nat × Nat × Nat) :=
  matchCountsAux s.data

/-! ## Data model (src/libs/types/src/deployment.ts) -/

structure DeploymentStep where
  name : String
  command : String
  workingDirectory : Option String
  env : List (String × String)
  timeout : Option Nat
  continueOnError : Option Bool
deriving DecidableEq, Repr

instance : Inhabited DeploymentStep := ⟨⟨"", "", none, [], none, none⟩⟩

structure E2ETestConfig where
  command : String
  workingDirectory : Option String
  waitForUrl : Option String
  waitTimeout : Option Nat
  env : List (String × String)
  timeout : Option Nat
deriving DecidableEq, Repr

structure DeploymentConfig where
  version : Nat
  autoDeployOnComplete : Bool
  buildSteps : List DeploymentStep
  deploySteps : List DeploymentStep
  e2eTests : Option E2ETestConfig
  healthCheckUrl : Option String
  healthCheckTimeout : Option Nat
deriving DecidableEq, Repr

/-- `DEFAULT_DEPLOYMENT_CONFIG`: version 1, auto-deploy off, empty step
lists, no optional fields. -/
def DEFAULT_DEPLOYMENT_CONFIG : DeploymentConfig :=
  ⟨1, false, [], [], none, none, none⟩

inductive DeploymentStatus where
  | idle | building | deploying | waiting_for_health | running_tests
  | success | failed
deriving DecidableEq, Repr

inductive StepStatus where
  | success | failed | skipped
deriving DecidableEq, Repr

def stepStatusStr : StepStatus → String
  | .success => "success"
  | .failed => "failed"
  | .skipped => "skipped"

structure StepResult where
  stepName : String
  status : StepStatus
  output : String
  error : Option String
  durationMs : Nat
deriving DecidableEq, Repr

instance : Inhabited StepResult := ⟨⟨"", .skipped, "", none, 0⟩⟩

inductive E2EStatus where
  | passed | failed | skipped
deriving DecidableEq, Repr

def e2eStatusStr : E2EStatus → String
  | .passed => "passed"
  | .failed => "failed"
  | .skipped => "skipped"

structure E2ETestResult where
  status : E2EStatus
  output : String
  error : Option String
  durationMs : Nat
  passed : Option Nat
  failed : Option Nat
  skipped : Option Nat
deriving DecidableEq, Repr

inductive Trigger where
  | manual | auto_mode_complete
deriving DecidableEq, Repr

structure DeploymentResult where
  id : String
  startedAt : String
  finishedAt : Option String
  status : DeploymentStatus
  buildResults : List StepResult
  deployResults : List StepResult
  e2eResult : Option E2ETestResult
  error : Option String
  trigger : Trigger
  featureIds : Option (List String)
deriving DecidableEq, Repr

inductive EventType where
  | deployment_started | build_step_started | build_step_completed
  | deploy_step_started | deploy_step_completed
  | health_check_started | health_check_completed
  | e2e_started | e2e_output | e2e_completed
  | deployment_completed | deployment_failed
deriving DecidableEq, Repr

/-- A `DeploymentEvent`, with its payload projected to the fields the
properties below inspect (`data.status`, `data.stepName`, `data.error`). -/
structure Event where
  type : EventType
  deploymentId : String
  dStatus : Option String
  dStepName : Option String
  dError : Option String
deriving DecidableEq, Repr

def mkEvent (t : EventType) (id : String) (st sn er : Option String) : Event :=
  ⟨t, id, st, sn, er⟩

def dfltEvent : Event := ⟨.e2e_output, "", none, none, none⟩

/-! ## Configuration store -/

/-- The filesystem, as seen through `readJsonFile`/`atomicWriteJson`:
a map from paths to stored (well-formed) configuration documents. -/
abbrev FileSys : Type := String → Option DeploymentConfig

def getDeploymentConfigPath (projectPath : String) : String :=
  projectPath ++ "/.automaker/deployment.json"

/-- `{...DEFAULT, ...config}` on an optional field: a key present in the
stored document wins over the default. -/
def jsonMergeField {α : Type} (dflt stored : Option α) : Option α :=
  match stored with
  | some v => some v
  | none => dflt

/-- The spread `{...DEFAULT_DEPLOYMENT_CONFIG, ...config}`: required
fields come from the stored document, optional fields from the stored
document when present there, otherwise from the default. -/
def mergeConfig (d c : DeploymentConfig) : DeploymentConfig :=
  { version := c.version
    autoDeployOnComplete := c.autoDeployOnComplete
    buildSteps := c.buildSteps
    deploySteps := c.deploySteps
    e2eTests := jsonMergeField d.e2eTests c.e2eTests
    healthCheckUrl := jsonMergeField d.healthCheckUrl c.healthCheckUrl
    healthCheckTimeout := jsonMergeField d.healthCheckTimeout c.healthCheckTimeout }

/-- `getDeploymentConfig`: read the document (missing file or read error
falls back to the default), then merge it over the default. -/
def getDeploymentConfig (fs : FileSys) (projectPath : String) : DeploymentConfig :=
  let config := (fs (getDeploymentConfigPath projectPath)).getD DEFAULT_DEPLOYMENT_CONFIG
  mergeConfig DEFAULT_DEPLOYMENT_CONFIG config

/-- `saveDeploymentConfig`: atomically replace the document (the
temp-file-then-rename dance ends in the rename landing the full
document at the config path). -/
def saveDeploymentConfig (fs : FileSys) (projectPath : String)
    (config : DeploymentConfig) : FileSys :=
  fun q => if q = getDeploymentConfigPath projectPath then some config else fs q

/-- `hasDeploymentConfig`: the backing document exists. -/
def hasDeploymentConfig (fs : FileSys) (projectPath : String) : Bool :=
  (fs (getDeploymentConfigPath projectPath)).isSome

/-! ## The orchestrator (`DeploymentService`) -/

/-- One `executeCommand` invocation's behaviour: the subprocess outcome
and the elapsed wall-clock time (`Date.now() - startTime`) observed when
the surrounding step records its duration. -/
structure StepRun where
  proc : ProcOutcome
  durMs : Nat

/-- The environment a whole `deploy` run interacts with: the generated
deployment id, the timestamps taken at start and finish, the behaviour
of every spawned build/deploy command (indexed by position within its
phase), the health-check and E2E-wait probes, and the E2E command. -/
structure Oracle where
  deploymentId : String
  t0 : String
  tEnd : String
  buildRuns : Nat → StepRun
  deployRuns : Nat → StepRun
  healthProbe : Nat → Option Nat
  healthDur : Nat → Nat
  e2eProbe : Nat → Option Nat
  e2eDur : Nat → Nat
  e2eProc : ProcOutcome
  e2eDurMs : Nat

/-- The mutable state of the `DeploymentService` singleton: the current
deployment slot and whether an event emitter has been attached. -/
structure ServiceState where
  currentDeployment : Option DeploymentResult
  hasEmitter : Bool

def getCurrentDeployment (st : ServiceState) : Option DeploymentResult :=
  st.currentDeployment

/-- `isDeploymentRunning`: a current deployment exists and its status is
not one of success/failed/idle. -/
def isDeploymentRunning (st : ServiceState) : Bool :=
  match st.currentDeployment with
  | none => false
  | some d => !(d.status == .success || d.status == .failed || d.status == .idle)

inductive StepKind where
  | build | deploy
deriving DecidableEq, Repr

def stepKindStarted : StepKind → EventType
  | .build => .build_step_started
  | .deploy => .deploy_step_started

def stepKindCompleted : StepKind → EventType
  | .build => .build_step_completed
  | .deploy => .deploy_step_completed

/-- `executeStep`: run the step's command with its env and timeout
(`step.timeout || 300000`) and build the `StepResult`. -/
def executeStep (s : DeploymentStep) (run : StepRun) : StepResult :=
  let r := executeCommand (orDefault s.timeout 300000) run.proc
  ⟨s.name, if r.success then .success else .failed, r.output, r.error, run.durMs⟩

/-- The `*_step_started` / `*_step_completed` event pair `executeStep`
emits around one step. -/
def executeStepEvents (k : StepKind) (id : String) (s : DeploymentStep)
    (res : StepResult) : List Event :=
  [ mkEvent (stepKindStarted k) id (some "running") (some s.name) none,
    mkEvent (stepKindCompleted k) id (some (stepStatusStr res.status)) (some s.name) res.error ]

/-- `result.status === 'failed' && !step.continueOnError`: the step's
failure aborts the phase. -/
def stepFatal (s : DeploymentStep) (run : StepRun) : Bool :=
  (executeStep s run).status == .failed && !(s.continueOnError.getD false)

def phaseFailMsg (k : StepKind) (n : String) : String :=
  match k with
  | .build => "Build step failed: " ++ n
  | .deploy => "Deploy step failed: " ++ n

/-- The per-phase loop of `deploy` (lines 330-337 for build, 343-350 for
deploy): run the steps in order, pushing each `StepResult` and emitting
its event pair; a fatal failure stops the loop and surfaces the thrown
`"<Phase> step failed: <name>"` message.  Returns the recorded results,
the emitted events and the raised error, if any.  `i` indexes the
oracle's runs for this phase. -/
def runPhase (k : StepKind) (id : String) (runs : Nat → StepRun) :
    List DeploymentStep → Nat → List StepResult × List Event × Option String
  | [], _ => ([], [], none)
  | s :: rest, i =>
    if stepFatal s (runs i) then
      ([executeStep s (runs i)],
       executeStepEvents k id s (executeStep s (runs i)),
       some (phaseFailMsg k s.name))
    else
      (executeStep s (runs i) :: (runPhase k id runs rest (i + 1)).1,
       executeStepEvents k id s (executeStep s (runs i)) ++ (runPhase k id runs rest (i + 1)).2.1,
       (runPhase k id runs rest (i + 1)).2.2)

/-- `runE2ETests` (lines 421-481): wait for the configured URL if any,
then run the E2E command via `executeCommand` semantics and best-effort
parse pass/fail/skip counts from its output. -/
def runE2ETests (cfg : DeploymentConfig) (o : Oracle) : E2ETestResult :=
  match cfg.e2eTests with
  | none => ⟨.skipped, "No E2E tests configured", none, 0, none, none, none⟩
  | some ec =>
    let runCmd : E2ETestResult :=
      let r := executeCommand (orDefault ec.timeout 600000) o.e2eProc
      let counts := matchCounts r.output
      ⟨if r.success then .passed else .failed, r.output, r.error, o.e2eDurMs,
       counts.map (fun c => c.1), counts.map (fun c => c.2.1), counts.map (fun c => c.2.2)⟩
    match ec.waitForUrl with
    | some u =>
      if waitForUrl o.e2eProbe o.e2eDur (orDefault ec.waitTimeout 60000) 2000 then runCmd
      else ⟨.failed, "Target URL not available: " ++ u, some "Target URL timeout",
            o.e2eDurMs, none, none, none⟩
    | none => runCmd

/-- The health-check phase (lines 352-371): only when `healthCheckUrl`
is configured; sets `waiting_for_health`, emits the start/completed
events, and raises when the probe reports the URL unavailable. -/
def healthPhase (cfg : DeploymentConfig) (d : DeploymentResult) (o : Oracle) :
    DeploymentResult × List Event × Option String :=
  match cfg.healthCheckUrl with
  | none => (d, [], none)
  | some url =>
    let healthOk := waitForUrl o.healthProbe o.healthDur (orDefault cfg.healthCheckTimeout 30000) 2000
    ({ d with status := .waiting_for_health },
     [ mkEvent .health_check_started d.id (some "waiting") none none,
       mkEvent .health_check_completed d.id (some (if healthOk then "success" else "failed")) none none ],
     if healthOk then none else some ("Health check failed: " ++ url ++ " not available"))

/-- The E2E phase (lines 373-389): only when `e2eTests` is configured;
sets `running_tests`, records the `E2ETestResult`, emits the
start/completed events, and raises when the tests failed. -/
def e2ePhase (cfg : DeploymentConfig) (d : DeploymentResult) (o : Oracle) :
    DeploymentResult × List Event × Option String :=
  match cfg.e2eTests with
  | none => (d, [], none)
  | some _ =>
    let t := runE2ETests cfg o
    ({ d with status := .running_tests, e2eResult := some t },
     [ mkEvent .e2e_started d.id (some "running") none none,
       mkEvent .e2e_completed d.id (some (e2eStatusStr t.status)) none none ],
     if t.status == .failed then some "E2E tests failed" else none)

/-- The body of `deploy`'s `try` block: build phase, then the second
`deployment_started` (status `deploying`) and the deploy phase, then the
health and E2E phases, threading the in-place mutations of the current
`DeploymentResult` and short-circuiting on the first raised error. -/
def deployBody (cfg : DeploymentConfig) (d0 : DeploymentResult) (o : Oracle) :
    DeploymentResult × List Event × Option String :=
  let b := runPhase .build d0.id o.buildRuns cfg.buildSteps 0
  let d1 := { d0 with buildResults := b.1 }
  match b.2.2 with
  | some e => (d1, b.2.1, some e)
  | none =>
    let evDeploying := mkEvent .deployment_started d0.id (some "deploying") none none
    let p := runPhase .deploy d0.id o.deployRuns cfg.deploySteps 0
    let d3 := { d1 with status := .deploying, deployResults := p.1 }
    match p.2.2 with
    | some e => (d3, b.2.1 ++ evDeploying :: p.2.1, some e)
    | none =>
      let h := healthPhase cfg d3 o
      match h.2.2 with
      | some e => (h.1, b.2.1 ++ evDeploying :: p.2.1 ++ h.2.1, some e)
      | none =>
        let x := e2ePhase cfg h.1 o
        (x.1, b.2.1 ++ evDeploying :: p.2.1 ++ h.2.1 ++ x.2.1, x.2.2)

/-- `deploy`'s success fall-through / top-level catch (lines 391-413):
stamp `finishedAt`, set the terminal status (recording the caught
error's message on failure) and emit the terminal event. -/
def finalize (o : Oracle) (d : DeploymentResult) : Option String → DeploymentResult × Event
  | none =>
    ({ d with status := .success, finishedAt := some o.tEnd },
     mkEvent .deployment_completed d.id (some "success") none none)
  | some e =>
    ({ d with status := .failed, finishedAt := some o.tEnd, error := some e },
     mkEvent .deployment_failed d.id (some "failed") none (some e))

/-- The fresh `DeploymentResult` installed at the start of a run. -/
def initialResult (o : Oracle) (trigger : Trigger)
    (featureIds : Option (List String)) : DeploymentResult :=
  ⟨o.deploymentId, o.t0, none, .building, [], [], none, none, trigger, featureIds⟩

/-- `deploy(projectPath, trigger, featureIds)` (lines 300-416).  Returns
the state after the call, the events emitted during it (empty unless an
emitter is attached — `emitEvent` is a no-op without one; the current
deployment is non-null from the first emission on), and the returned
result — `Except.error` models the `throw` of the already-in-progress
guard, which fires before anything is mutated or emitted. -/
def deploy (st : ServiceState) (fs : FileSys) (projectPath : String)
    (trigger : Trigger) (featureIds : Option (List String)) (o : Oracle) :
    ServiceState × List Event × Except String DeploymentResult :=
  if isDeploymentRunning st then
    (st, [], .error "A deployment is already in progress")
  else
    let cfg := getDeploymentConfig fs projectPath
    let d0 := initialResult o trigger featureIds
    let evStart := mkEvent .deployment_started d0.id (some "building") none none
    let body := deployBody cfg d0 o
    let fin := finalize o body.1 body.2.2
    ({ st with currentDeployment := some fin.1 },
     if st.hasEmitter then evStart :: body.2.1 ++ [fin.2] else [],
     .ok fin.1)

/-- `cancelDeployment` (lines 486-499): if a run is in flight, force the
current result to `failed` with the fixed cancellation message, stamp
`finishedAt` (`t` is the wall clock at the call) and emit
`deployment_failed`; otherwise do nothing. -/
def cancelDeployment (st : ServiceState) (t : String) : ServiceState × List Event :=
  match st.currentDeployment with
  | some d =>
    if isDeploymentRunning st then
      let d1 := { d with status := DeploymentStatus.failed, finishedAt := some t,
                         error := some "Deployment cancelled by user" }
      ({ st with currentDeployment := some d1 },
       if st.hasEmitter then
         [mkEvent .deployment_failed d.id (some "failed") none (some "Cancelled by user")]
       else [])
    else (st, [])
  | none => (st, [])

/-- The service state while `deploy` is suspended awaiting its first
build step's command: the fresh result is installed with status
`building`. -/
def deployMidState (st : ServiceState) (o : Oracle) (trigger : Trigger)
    (featureIds : Option (List String)) : ServiceState :=
  { st with currentDeployment := some (initialResult o trigger featureIds) }

/-- The combined event stream when `cancelDeployment` is invoked while
`deploy` is suspended awaiting its first build step's command (so after
`deployment_started` and the first `build_step_started` were emitted).
The continuation of `deploy` emits exactly the events it would have
emitted anyway: `deploy` never reads the fields `cancelDeployment`
mutates (`status`, `finishedAt`, `error` — it only overwrites them), and
`emitEvent`'s guard only looks at the emitter and at the current
deployment being non-null, both unchanged by the cancellation.  So the
observed stream is `deploy`'s stream with the cancellation's
`deployment_failed` interleaved at the suspension point. -/
def deployTraceCancelInFirstBuildStep (st : ServiceState) (fs : FileSys)
    (projectPath : String) (trigger : Trigger) (featureIds : Option (List String))
    (o : Oracle) (tCancel : String) : List Event :=
  let evs := (deploy st fs projectPath trigger featureIds o).2.1
  evs.take 2 ++ (cancelDeployment (deployMidState st o trigger featureIds) tCancel).2 ++ evs.drop 2

/-! ## Helper lemmas -/

lemma getD_append_self {α : Type} (l1 l2 : List α) (x d : α) :
    (l1 ++ x :: l2).getD l1.length d = x := by
  induction l1 with
  | nil => rfl
  | cons a l ih => simpa using ih

lemma getD_append_len_succ {α : Type} (l1 l2 : List α) (x d : α) :
    (l1 ++ x :: l2).getD (l1.length + 1) d = l2.getD 0 d := by
  induction l1 with
  | nil => rfl
  | cons a l ih => simpa using ih

/-- The `StepResult`s the given steps produce when run in order with
oracle runs starting at index `i0` (ignoring aborts). -/
def phaseRes (runs : Nat → StepRun) : List DeploymentStep → Nat → List StepResult
  | [], _ => []
  | s :: rest, i => executeStep s (runs i) :: phaseRes runs rest (i + 1)

/-- The events the given steps emit when run in order with oracle runs
starting at index `i0` (ignoring aborts). -/
def phaseEvs (k : StepKind) (id : String) (runs : Nat → StepRun) :
    List DeploymentStep → Nat → List Event
  | [], _ => []
  | s :: rest, i =>
    executeStepEvents k id s (executeStep s (runs i)) ++ phaseEvs k id runs rest (i + 1)

lemma phaseRes_length (runs : Nat → StepRun) :
    ∀ (steps : List DeploymentStep) (i0 : Nat),
      (phaseRes runs steps i0).length = steps.length := by
  intro steps
  induction steps with
  | nil => intro i0; rfl
  | cons s rest ih => intro i0; simp [phaseRes, ih]

lemma runPhase_fatal_cons (k : StepKind) (id : String) (runs : Nat → StepRun)
    (s : DeploymentStep) (rest : List DeploymentStep) (i0 : Nat)
    (h : stepFatal s (runs i0) = true) :
    runPhase k id runs (s :: rest) i0 =
      ([executeStep s (runs i0)],
       executeStepEvents k id s (executeStep s (runs i0)),
       some (phaseFailMsg k s.name)) := by
  simp [runPhase, h]

lemma runPhase_nonfatal_cons (k : StepKind) (id : String) (runs : Nat → StepRun)
    (s : DeploymentStep) (rest : List DeploymentStep) (i0 : Nat)
    (h : stepFatal s (runs i0) = false) :
    runPhase k id runs (s :: rest) i0 =
      (executeStep s (runs i0) :: (runPhase k id runs rest (i0 + 1)).1,
       executeStepEvents k id s (executeStep s (runs i0)) ++ (runPhase k id runs rest (i0 + 1)).2.1,
       (runPhase k id runs rest (i0 + 1)).2.2) := by
  simp [runPhase, h]

/-- Splitting a phase at a fatal-failure-free prefix: the prefix records
all its results and events and the loop continues with the remaining
steps. -/
lemma runPhase_split (k : StepKind) (id : String) (runs : Nat → StepRun) :
    ∀ (pre rest : List DeploymentStep) (i0 : Nat),
      (∀ j, j < pre.length → stepFatal (pre.getD j default) (runs (i0 + j)) = false) →
      runPhase k id runs (pre ++ rest) i0 =
        (phaseRes runs pre i0 ++ (runPhase k id runs rest (i0 + pre.length)).1,
         phaseEvs k id runs pre i0 ++ (runPhase k id runs rest (i0 + pre.length)).2.1,
         (runPhase k id runs rest (i0 + pre.length)).2.2) := by
  intro pre
  induction pre with
  | nil =>
    intro rest i0 _
    simp only [List.nil_append, List.length_nil, Nat.add_zero, phaseRes, phaseEvs]
  | cons s pre ih =>
    intro rest i0 hpre
    have h0 : stepFatal s (runs (i0 + 0)) = false := hpre 0 (by simp)
    rw [Nat.add_zero] at h0
    have hsh : ∀ j, j < pre.length → stepFatal (pre.getD j default) (runs (i0 + 1 + j)) = false := by
      intro j hj
      have h2 := hpre (j + 1) (by simp; omega)
      rw [List.getD_cons_succ] at h2
      have e2 : i0 + (j + 1) = i0 + 1 + j := by omega
      rw [e2] at h2
      exact h2
    have harith : i0 + (s :: pre).length = i0 + 1 + pre.length := by simp; omega
    rw [List.cons_append, runPhase_nonfatal_cons k id runs s (pre ++ rest) i0 h0,
        ih rest (i0 + 1) hsh, harith]
    simp [phaseRes, phaseEvs]

lemma runPhase_fst_getD_zero (k : StepKind) (id : String) (runs : Nat → StepRun)
    (s : DeploymentStep) (rest : List DeploymentStep) (i0 : Nat) (d : StepResult) :
    (runPhase k id runs (s :: rest) i0).1.getD 0 d = executeStep s (runs i0) := by
  by_cases h : stepFatal s (runs i0) <;> simp [runPhase, h]

lemma mem_executeStepEvents (k : StepKind) (id : String) (s : DeploymentStep)
    (res : StepResult) (e : Event)
    (he : e ∈ executeStepEvents k id s res) :
    (e.type = stepKindStarted k ∨ e.type = stepKindCompleted k) ∧ e.deploymentId = id := by
  simp only [executeStepEvents, List.mem_cons, List.mem_singleton, mkEvent] at he
  rcases he with rfl | rfl | h
  · exact ⟨Or.inl rfl, rfl⟩
  · exact ⟨Or.inr rfl, rfl⟩
  · simp at h

lemma mem_runPhase_events (k : StepKind) (id : String) (runs : Nat → StepRun) :
    ∀ (steps : List DeploymentStep) (i0 : Nat) (e : Event),
      e ∈ (runPhase k id runs steps i0).2.1 →
      (e.type = stepKindStarted k ∨ e.type = stepKindCompleted k) ∧ e.deploymentId = id := by
  intro steps
  induction steps with
  | nil => intro i0 e he; simp [runPhase] at he
  | cons s rest ih =>
    intro i0 e he
    by_cases h : stepFatal s (runs i0)
    · rw [runPhase_fatal_cons k id runs s rest i0 h] at he
      exact mem_executeStepEvents k id s _ e he
    · rw [runPhase_nonfatal_cons k id runs s rest i0 (by simpa using h)] at he
      rcases List.mem_append.mp he with h1 | h2
      · exact mem_executeStepEvents k id s _ e h1
      · exact ih (i0 + 1) e h2

/-- Events of a step phase are never `deployment_started` nor terminal. -/
lemma runPhase_event_types (k : StepKind) (id : String) (runs : Nat → StepRun)
    (steps : List DeploymentStep) (i0 : Nat) (e : Event)
    (he : e ∈ (runPhase k id runs steps i0).2.1) :
    e.type ≠ .deployment_started ∧ e.type ≠ .deployment_completed ∧
    e.type ≠ .deployment_failed := by
  rcases (mem_runPhase_events k id runs steps i0 e he).1 with h | h <;>
    cases k <;> rw [h] <;> exact ⟨by decide, by decide, by decide⟩

lemma healthPhase_fst (cfg : DeploymentConfig) (d : DeploymentResult) (o : Oracle) :
    (healthPhase cfg d o).1.id = d.id ∧
    (healthPhase cfg d o).1.buildResults = d.buildResults ∧
    (healthPhase cfg d o).1.deployResults = d.deployResults := by
  rcases h : cfg.healthCheckUrl with _ | url <;> simp [healthPhase, h]

lemma e2ePhase_fst (cfg : DeploymentConfig) (d : DeploymentResult) (o : Oracle) :
    (e2ePhase cfg d o).1.id = d.id ∧
    (e2ePhase cfg d o).1.buildResults = d.buildResults ∧
    (e2ePhase cfg d o).1.deployResults = d.deployResults := by
  rcases h : cfg.e2eTests with _ | ec <;> simp [e2ePhase, h]

lemma mem_healthPhase_events (cfg : DeploymentConfig) (d : DeploymentResult)
    (o : Oracle) (e : Event) (he : e ∈ (healthPhase cfg d o).2.1) :
    (e.type = .health_check_started ∨ e.type = .health_check_completed) ∧
    e.deploymentId = d.id := by
  rcases h : cfg.healthCheckUrl with _ | url
  · simp [healthPhase, h] at he
  · simp only [healthPhase, h, mkEvent, List.mem_cons, List.not_mem_nil, or_false] at he
    rcases he with rfl | rfl
    · exact ⟨Or.inl rfl, rfl⟩
    · exact ⟨Or.inr rfl, rfl⟩

lemma mem_e2ePhase_events (cfg : DeploymentConfig) (d : DeploymentResult)
    (o : Oracle) (e : Event) (he : e ∈ (e2ePhase cfg d o).2.1) :
    (e.type = .e2e_started ∨ e.type = .e2e_completed) ∧ e.deploymentId = d.id := by
  rcases h : cfg.e2eTests with _ | ec
  · simp [e2ePhase, h] at he
  · simp only [e2ePhase, h, mkEvent, List.mem_cons, List.not_mem_nil, or_false] at he
    rcases he with rfl | rfl
    · exact ⟨Or.inl rfl, rfl⟩
    · exact ⟨Or.inr rfl, rfl⟩

lemma deployBody_fst_id (cfg : DeploymentConfig) (d0 : DeploymentResult) (o : Oracle) :
    (deployBody cfg d0 o).1.id = d0.id := by
  unfold deployBody
  dsimp only
  split
  · rfl
  · split
    · rfl
    · split
      · exact ((healthPhase_fst cfg _ o).1).trans rfl
      · exact ((e2ePhase_fst cfg _ o).1).trans (((healthPhase_fst cfg _ o).1).trans rfl)

/-- Every event the `try` body emits carries the run's id and is neither
`deployment_completed` nor `deployment_failed`. -/
lemma mem_deployBody_events (cfg : DeploymentConfig) (d0 : DeploymentResult)
    (o : Oracle) (e : Event) (he : e ∈ (deployBody cfg d0 o).2.1) :
    e.deploymentId = d0.id ∧ e.type ≠ .deployment_completed ∧
    e.type ≠ .deployment_failed := by
  have hbuild : ∀ e, e ∈ (runPhase .build d0.id o.buildRuns cfg.buildSteps 0).2.1 →
      e.deploymentId = d0.id ∧ e.type ≠ .deployment_completed ∧
      e.type ≠ .deployment_failed := by
    intro e he
    have h := runPhase_event_types .build d0.id o.buildRuns cfg.buildSteps 0 e he
    exact ⟨(mem_runPhase_events .build d0.id o.buildRuns cfg.buildSteps 0 e he).2, h.2.1, h.2.2⟩
  have hdeplo : ∀ e, e ∈ (runPhase .deploy d0.id o.deployRuns cfg.deploySteps 0).2.1 →
      e.deploymentId = d0.id ∧ e.type ≠ .deployment_completed ∧
      e.type ≠ .deployment_failed := by
    intro e he
    have h := runPhase_event_types .deploy d0.id o.deployRuns cfg.deploySteps 0 e he
    exact ⟨(mem_runPhase_events .deploy d0.id o.deployRuns cfg.deploySteps 0 e he).2, h.2.1, h.2.2⟩
  have hdep : ∀ e, e = mkEvent .deployment_started d0.id (some "deploying") none none →
      e.deploymentId = d0.id ∧ e.type ≠ .deployment_completed ∧
      e.type ≠ .deployment_failed := by
    rintro e rfl
    exact ⟨rfl, by simp [mkEvent], by simp [mkEvent]⟩
  have hhealth : ∀ d e, e ∈ (healthPhase cfg d o).2.1 →
      e.deploymentId = d.id ∧ e.type ≠ .deployment_completed ∧
      e.type ≠ .deployment_failed := by
    intro d e he
    have hh := mem_healthPhase_events cfg d o e he
    refine ⟨hh.2, ?_, ?_⟩ <;> rcases hh.1 with ht | ht <;> rw [ht] <;> decide
  have he2e : ∀ d e, e ∈ (e2ePhase cfg d o).2.1 →
      e.deploymentId = d.id ∧ e.type ≠ .deployment_completed ∧
      e.type ≠ .deployment_failed := by
    intro d e he
    have hh := mem_e2ePhase_events cfg d o e he
    refine ⟨hh.2, ?_, ?_⟩ <;> rcases hh.1 with ht | ht <;> rw [ht] <;> decide
  unfold deployBody at he
  dsimp only at he
  split at he
  · exact hbuild e he
  · split at he
    · rcases List.mem_append.mp he with h1 | h2
      · exact hbuild e h1
      · rcases List.mem_cons.mp h2 with h3 | h4
        · exact hdep e h3
        · exact hdeplo e h4
    · split at he
      · rcases List.mem_append.mp he with h12 | h6
        · rcases List.mem_append.mp h12 with h1 | h2
          · exact hbuild e h1
          · rcases List.mem_cons.mp h2 with h3 | h4
            · exact hdep e h3
            · exact hdeplo e h4
        · have hh := hhealth _ e h6
          exact ⟨hh.1.trans rfl, hh.2.1, hh.2.2⟩
      · rcases List.mem_append.mp he with h123 | h8
        · rcases List.mem_append.mp h123 with h12 | h6
          · rcases List.mem_append.mp h12 with h1 | h2
            · exact hbuild e h1
            · rcases List.mem_cons.mp h2 with h3 | h4
              · exact hdep e h3
              · exact hdeplo e h4
          · have hh := hhealth _ e h6
            exact ⟨hh.1.trans rfl, hh.2.1, hh.2.2⟩
        · have hh := he2e _ e h8
          exact ⟨hh.1.trans (((healthPhase_fst cfg _ o).1).trans rfl), hh.2.1, hh.2.2⟩

/-- The predicate picking out `deployment_started` events. -/
def isStartedEv (e : Event) : Bool := e.type == .deployment_started

lemma filter_started_runPhase (k : StepKind) (id : String) (runs : Nat → StepRun)
    (steps : List DeploymentStep) (i0 : Nat) :
    ((runPhase k id runs steps i0).2.1).filter isStartedEv = [] := by
  rw [List.filter_eq_nil_iff]
  intro e he
  have h := (runPhase_event_types k id runs steps i0 e he).1
  simp [isStartedEv, h]

lemma filter_started_healthPhase (cfg : DeploymentConfig) (d : DeploymentResult)
    (o : Oracle) : ((healthPhase cfg d o).2.1).filter isStartedEv = [] := by
  rcases h : cfg.healthCheckUrl with _ | url <;> simp only [healthPhase, h] <;> rfl

lemma filter_started_e2ePhase (cfg : DeploymentConfig) (d : DeploymentResult)
    (o : Oracle) : ((e2ePhase cfg d o).2.1).filter isStartedEv = [] := by
  rcases h : cfg.e2eTests with _ | ec <;> simp only [e2ePhase, h] <;> rfl

/-- When the build phase raises no error, the body's stream contains
exactly one `deployment_started` event — the `deploying` one. -/
lemma deployBody_started_filter (cfg : DeploymentConfig) (d0 : DeploymentResult)
    (o : Oracle)
    (hb : (runPhase .build d0.id o.buildRuns cfg.buildSteps 0).2.2 = none) :
    ((deployBody cfg d0 o).2.1).filter isStartedEv =
      [mkEvent .deployment_started d0.id (some "deploying") none none] := by
  unfold deployBody
  dsimp only
  rw [hb]
  dsimp only
  split
  · rw [List.filter_append, filter_started_runPhase, List.filter_cons,
        filter_started_runPhase]
    simp [isStartedEv, mkEvent]
  · split
    · rw [List.filter_append, List.filter_append, filter_started_runPhase,
          List.filter_cons, filter_started_runPhase, filter_started_healthPhase]
      simp [isStartedEv, mkEvent]
    · rw [List.filter_append, List.filter_append, List.filter_append,
          filter_started_runPhase, List.filter_cons, filter_started_runPhase,
          filter_started_healthPhase, filter_started_e2ePhase]
      simp [isStartedEv, mkEvent]

lemma attemptTimeFrom_le (dur : Nat → Nat) (I : Nat) :
    ∀ (j t k : Nat), t ≤ attemptTimeFrom dur I t k j := by
  intro j
  induction j with
  | zero => intro t k; exact Nat.le_refl t
  | succ j ih =>
    intro t k
    have h1 : t ≤ t + dur k + I := by omega
    exact h1.trans (ih (t + dur k + I) (k + 1))

lemma getD_false_iff (x : Option Bool) : x.getD false = true ↔ x = some true := by
  cases x <;> simp

lemma exists_attempt_shift (probe : Nat → Option Nat) (dur : Nat → Nat)
    (I T t k : Nat) (hq : probeQualifies probe k = false) :
    ((∃ j, attemptTimeFrom dur I (t + dur k + I) (k + 1) j < T ∧
        probeQualifies probe (k + 1 + j) = true) ↔
      (∃ j, attemptTimeFrom dur I t k j < T ∧ probeQualifies probe (k + j) = true)) := by
  constructor
  · rintro ⟨j, hj, hjq⟩
    refine ⟨j + 1, hj, ?_⟩
    have h : k + (j + 1) = k + 1 + j := by omega
    rw [h]; exact hjq
  · rintro ⟨j, hj, hjq⟩
    cases j with
    | zero =>
      rw [Nat.add_zero] at hjq
      rw [hq] at hjq
      exact absurd hjq (by simp)
    | succ j =>
      refine ⟨j, hj, ?_⟩
      have h : k + 1 + j = k + (j + 1) := by omega
      rw [h]; exact hjq

/-- Characterisation of the polling loop: given enough fuel it returns
`some true` exactly when some attempt issued before the deadline gets a
qualifying response. -/
lemma waitAux_true_iff (probe : Nat → Option Nat) (dur : Nat → Nat)
    (T I : Nat) (hI : 1 ≤ I) :
    ∀ (fuel t k : Nat), T < t + fuel →
      (waitAux probe dur T I fuel t k = some true ↔
        ∃ j, attemptTimeFrom dur I t k j < T ∧ probeQualifies probe (k + j) = true) := by
  intro fuel
  induction fuel with
  | zero =>
    intro t k hf
    constructor
    · intro h; simp [waitAux] at h
    · rintro ⟨j, hj, _⟩
      have := attemptTimeFrom_le dur I j t k
      omega
  | succ fuel ih =>
    intro t k hf
    by_cases ht : t < T
    · rcases hp : probe k with _ | s
      · have hq : probeQualifies probe k = false := by simp [probeQualifies, hp]
        have heq : waitAux probe dur T I (fuel + 1) t k =
            waitAux probe dur T I fuel (t + dur k + I) (k + 1) := by
          simp only [waitAux, if_pos ht, hp]
        rw [heq, ih (t + dur k + I) (k + 1) (by omega)]
        exact exists_attempt_shift probe dur I T t k hq
      · by_cases hr : respReachable s
        · have heq : waitAux probe dur T I (fuel + 1) t k = some true := by
            simp only [waitAux, if_pos ht, hp, if_pos hr]
          rw [heq]
          simp only [true_iff]
          exact ⟨0, ht, by simp [probeQualifies, hp, hr]⟩
        · have hq : probeQualifies probe k = false := by
            simp [probeQualifies, hp]
            exact Bool.not_eq_true _ ▸ (by simpa using hr)
          have heq : waitAux probe dur T I (fuel + 1) t k =
              waitAux probe dur T I fuel (t + dur k + I) (k + 1) := by
            simp only [waitAux, if_pos ht, hp, if_neg hr]
          rw [heq, ih (t + dur k + I) (k + 1) (by omega)]
          exact exists_attempt_shift probe dur I T t k hq
    · have heq : waitAux probe dur T I (fuel + 1) t k = some false := by
        simp only [waitAux, if_neg ht]
      rw [heq]
      constructor
      · intro h; exact absurd h (by simp)
      · rintro ⟨j, hj, _⟩
        have := attemptTimeFrom_le dur I j t k
        omega

lemma getD_take {α : Type} (l : List α) :
    ∀ (n j : Nat) (d : α), j < n → (l.take n).getD j d = l.getD j d := by
  induction l with
  | nil => intro n j d _; simp
  | cons a l ih =>
    intro n j d hj
    cases n with
    | zero => omega
    | succ n =>
      cases j with
      | zero => rfl
      | succ j => simpa using ih n j d (by omega)

/-- The result a guard-passing `deploy` returns and retains. -/
def deployedResult (fs : FileSys) (p : String) (tr : Trigger)
    (fids : Option (List String)) (o : Oracle) : DeploymentResult :=
  (finalize o (deployBody (getDeploymentConfig fs p) (initialResult o tr fids) o).1
    (deployBody (getDeploymentConfig fs p) (initialResult o tr fids) o).2.2).1

/-- The terminal event a guard-passing `deploy` emits last. -/
def deployedTerminalEvent (fs : FileSys) (p : String) (tr : Trigger)
    (fids : Option (List String)) (o : Oracle) : Event :=
  (finalize o (deployBody (getDeploymentConfig fs p) (initialResult o tr fids) o).1
    (deployBody (getDeploymentConfig fs p) (initialResult o tr fids) o).2.2).2

/-- The full event stream of a guard-passing `deploy`. -/
def deployedEvents (st : ServiceState) (fs : FileSys) (p : String) (tr : Trigger)
    (fids : Option (List String)) (o : Oracle) : List Event :=
  if st.hasEmitter then
    mkEvent .deployment_started (initialResult o tr fids).id (some "building") none none ::
      (deployBody (getDeploymentConfig fs p) (initialResult o tr fids) o).2.1 ++
      [deployedTerminalEvent fs p tr fids o]
  else []

/-- Unfolding of `deploy` when the already-in-progress guard passes. -/
lemma deploy_not_running_eq (st : ServiceState) (fs : FileSys) (p : String)
    (tr : Trigger) (fids : Option (List String)) (o : Oracle)
    (h : isDeploymentRunning st = false) :
    deploy st fs p tr fids o =
      ({ st with currentDeployment := some (deployedResult fs p tr fids o) },
       deployedEvents st fs p tr fids o,
       .ok (deployedResult fs p tr fids o)) := by
  simp [deploy, h, deployedResult, deployedEvents, deployedTerminalEvent]

lemma finalize_snd_id (o : Oracle) (d : DeploymentResult) (err : Option String) :
    (finalize o d err).2.deploymentId = d.id := by
  cases err <;> rfl

lemma finalize_snd_type (o : Oracle) (d : DeploymentResult) (err : Option String) :
    (finalize o d err).2.type = .deployment_completed ∨
    (finalize o d err).2.type = .deployment_failed := by
  cases err
  · exact Or.inl rfl
  · exact Or.inr rfl

lemma finalize_fst_buildResults (o : Oracle) (d : DeploymentResult) (err : Option String) :
    (finalize o d err).1.buildResults = d.buildResults := by
  cases err <;> rfl

lemma finalize_fst_deployResults (o : Oracle) (d : DeploymentResult) (err : Option String) :
    (finalize o d err).1.deployResults = d.deployResults := by
  cases err <;> rfl

lemma finalize_fst_e2eResult (o : Oracle) (d : DeploymentResult) (err : Option String) :
    (finalize o d err).1.e2eResult = d.e2eResult := by
  cases err <;> rfl

/-- `deployBody` when the build phase raises. -/
lemma deployBody_build_err (cfg : DeploymentConfig) (d0 : DeploymentResult) (o : Oracle)
    (R : List StepResult) (E : List Event) (m : String)
    (hsome : runPhase .build d0.id o.buildRuns cfg.buildSteps 0 = (R, E, some m)) :
    deployBody cfg d0 o = ({ d0 with buildResults := R }, E, some m) := by
  unfold deployBody
  rw [hsome]

/-- `deployBody` when the build phase is clean and the deploy phase raises. -/
lemma deployBody_deploy_err (cfg : DeploymentConfig) (d0 : DeploymentResult) (o : Oracle)
    (RB : List StepResult) (EB : List Event) (R : List StepResult) (E : List Event) (m : String)
    (hb : runPhase .build d0.id o.buildRuns cfg.buildSteps 0 = (RB, EB, none))
    (hp : runPhase .deploy d0.id o.deployRuns cfg.deploySteps 0 = (R, E, some m)) :
    deployBody cfg d0 o =
      ({ d0 with buildResults := RB, status := .deploying, deployResults := R },
       EB ++ mkEvent .deployment_started d0.id (some "deploying") none none :: E,
       some m) := by
  unfold deployBody
  rw [hb, hp]

lemma deployBody_fst_buildResults (cfg : DeploymentConfig) (d0 : DeploymentResult)
    (o : Oracle) :
    (deployBody cfg d0 o).1.buildResults =
      (runPhase .build d0.id o.buildRuns cfg.buildSteps 0).1 := by
  unfold deployBody
  dsimp only
  split
  · rfl
  · split
    · rfl
    · split
      · exact ((healthPhase_fst cfg _ o).2.1).trans rfl
      · exact ((e2ePhase_fst cfg _ o).2.1).trans (((healthPhase_fst cfg _ o).2.1).trans rfl)

lemma deployBody_fst_deployResults (cfg : DeploymentConfig) (d0 : DeploymentResult)
    (o : Oracle)
    (hb : (runPhase .build d0.id o.buildRuns cfg.buildSteps 0).2.2 = none) :
    (deployBody cfg d0 o).1.deployResults =
      (runPhase .deploy d0.id o.deployRuns cfg.deploySteps 0).1 := by
  unfold deployBody
  dsimp only
  rw [hb]
  dsimp only
  split
  · rfl
  · split
    · exact ((healthPhase_fst cfg _ o).2.2).trans rfl
    · exact ((e2ePhase_fst cfg _ o).2.2).trans (((healthPhase_fst cfg _ o).2.2).trans rfl)

/-- A clean phase run over all steps. -/
lemma runPhase_all_nonfatal (k : StepKind) (id : String) (runs : Nat → StepRun)
    (steps : List DeploymentStep)
    (h : ∀ j, j < steps.length → stepFatal (steps.getD j default) (runs j) = false) :
    runPhase k id runs steps 0 = (phaseRes runs steps 0, phaseEvs k id runs steps 0, none) := by
  have hs := runPhase_split k id runs steps [] 0 (by
    intro j hj
    rw [Nat.zero_add]
    exact h j hj)
  rw [List.append_nil] at hs
  simpa [runPhase] using hs

/-- Splitting a phase at index `i` when no step before `i` is fatal. -/
lemma runPhase_split_at (k : StepKind) (id : String) (runs : Nat → StepRun)
    (steps : List DeploymentStep) (i : Nat) (hi : i < steps.length)
    (hprev : ∀ j, j < i → stepFatal (steps.getD j default) (runs j) = false) :
    runPhase k id runs steps 0 =
      (phaseRes runs (steps.take i) 0 ++
         (runPhase k id runs (steps.getD i default :: steps.drop (i + 1)) i).1,
       phaseEvs k id runs (steps.take i) 0 ++
         (runPhase k id runs (steps.getD i default :: steps.drop (i + 1)) i).2.1,
       (runPhase k id runs (steps.getD i default :: steps.drop (i + 1)) i).2.2) := by
  have hlen : (steps.take i).length = i := by rw [List.length_take]; omega
  have hpre : ∀ j, j < (steps.take i).length →
      stepFatal ((steps.take i).getD j default) (runs (0 + j)) = false := by
    intro j hj
    rw [hlen] at hj
    rw [getD_take steps i j default hj, Nat.zero_add]
    exact hprev j hj
  have h := runPhase_split k id runs (steps.take i) (steps.drop i) 0 hpre
  rw [List.take_append_drop, hlen, Nat.zero_add] at h
  have hdrop : steps.drop i = steps.getD i default :: steps.drop (i + 1) := by
    rw [List.getD_eq_getElem steps default hi]
    exact List.drop_eq_getElem_cons hi
  rw [h, hdrop]

/-! ## Concrete fixtures for counterexamples and witnesses -/

def fsEmpty : FileSys := fun _ => none

def okRun : StepRun := ⟨.exited (some 0) "ok" "", 5⟩

def o0 : Oracle :=
  { deploymentId := "dep1", t0 := "t0", tEnd := "t1"
    buildRuns := fun _ => okRun
    deployRuns := fun _ => okRun
    healthProbe := fun _ => some 200
    healthDur := fun _ => 0
    e2eProbe := fun _ => some 200
    e2eDur := fun _ => 0
    e2eProc := .exited (some 0) "12 passed, 3 failed, 1 skipped" ""
    e2eDurMs := 7 }

def step1 : DeploymentStep := ⟨"compile", "make", none, [], none, none⟩

def cfg1 : DeploymentConfig := ⟨1, false, [step1], [], none, none, none⟩

def fs1 : FileSys := saveDeploymentConfig fsEmpty "proj" cfg1

def st0 : ServiceState := ⟨none, true⟩

def dBusy : DeploymentResult :=
  ⟨"dep0", "t0", none, .building, [], [], none, none, .manual, none⟩

def stBusy : ServiceState := ⟨some dBusy, true⟩

def badStep : DeploymentStep := ⟨"lint", "run lint", none, [], none, none⟩

def cfg2 : DeploymentConfig := ⟨1, false, [badStep, step1], [], none, none, none⟩

def fs2 : FileSys := saveDeploymentConfig fsEmpty "proj" cfg2

def oFail : Oracle := { o0 with buildRuns := fun _ => ⟨.exited (some 2) "" "boom", 3⟩ }

def ecFix : E2ETestConfig := ⟨"npx playwright test", none, none, none, [], none⟩

def cfgE2E : DeploymentConfig := ⟨1, false, [], [], some ecFix, none, none⟩

/-! ## Claims -/

/-- C1: a `deploy` call made while `isDeploymentRunning()` is true fails
with the already-in-progress error before anything happens: no new
`DeploymentResult` is created, no event is emitted, and the in-flight
result of `getCurrentDeployment()` is left completely unchanged. -/
theorem deploy_while_running_fails (st : ServiceState) (fs : FileSys) (p : String)
    (tr : Trigger) (fids : Option (List String)) (o : Oracle)
    (h : isDeploymentRunning st = true) :
    deploy st fs p tr fids o = (st, [], .error "A deployment is already in progress") ∧
    getCurrentDeployment (deploy st fs p tr fids o).1 = getCurrentDeployment st := by
  have h1 : deploy st fs p tr fids o =
      (st, [], .error "A deployment is already in progress") := by
    simp [deploy, h]
  exact ⟨h1, by rw [h1]⟩

/-- Witness for C1 at a concrete in-flight state. -/
theorem deploy_while_running_fails_witness :
    isDeploymentRunning stBusy = true ∧
    deploy stBusy fsEmpty "proj" .manual none o0 =
      (stBusy, [], .error "A deployment is already in progress") :=
  ⟨rfl, (deploy_while_running_fails stBusy fsEmpty "proj" .manual none o0 rfl).1⟩

/-- C3 counterexample: at a concrete state with a run already in flight,
`deploy` throws to its caller (the returned computation is the
already-in-progress error, not a normal result), so "deploy never throws
for every input" fails. -/
theorem deploy_throws_when_already_running :
    (deploy stBusy fsEmpty "proj" .manual none o0).2.2 =
      Except.error "A deployment is already in progress" := rfl

/-- C3 (amended): provided no deployment is in flight when `deploy` is
called, it never throws: every error raised during any phase is caught
at the top level, the run ends `success` or `failed`, `finishedAt` is
stamped, a failure records the error's message in `error` and — with an
emitter attached — emits `deployment_failed` as the final event, and the
result is returned normally. -/
theorem deploy_no_throw_when_not_running (st : ServiceState) (fs : FileSys)
    (p : String) (tr : Trigger) (fids : Option (List String)) (o : Oracle)
    (h : isDeploymentRunning st = false) :
    ∃ r, (deploy st fs p tr fids o).2.2 = Except.ok r ∧
      r.finishedAt = some o.tEnd ∧
      (r.status = .success ∨ r.status = .failed) ∧
      (r.status = .failed → ∃ m, r.error = some m ∧
        (st.hasEmitter = true →
          ((deploy st fs p tr fids o).2.1).getLast? =
            some (mkEvent .deployment_failed o.deploymentId (some "failed") none (some m)))) := by
  rw [deploy_not_running_eq st fs p tr fids o h]
  unfold deployedResult deployedEvents deployedTerminalEvent
  refine ⟨_, rfl, ?_, ?_, ?_⟩
  · rcases hb : (deployBody (getDeploymentConfig fs p) (initialResult o tr fids) o).2.2
      with _ | m <;> simp [finalize, hb]
  · rcases hb : (deployBody (getDeploymentConfig fs p) (initialResult o tr fids) o).2.2
      with _ | m <;> simp [finalize, hb]
  · intro hfail
    rcases hb : (deployBody (getDeploymentConfig fs p) (initialResult o tr fids) o).2.2
      with _ | m
    · rw [hb] at hfail
      simp [finalize] at hfail
    · refine ⟨m, by simp [finalize, hb], ?_⟩
      intro hem
      rw [hem]
      dsimp only
      rw [if_pos rfl, List.getLast?_concat]
      have hid : (deployBody (getDeploymentConfig fs p) (initialResult o tr fids) o).1.id =
          o.deploymentId := deployBody_fst_id _ _ o
      simp [finalize, hid]

/-- Witness for the amended C3 on a concrete idle state. -/
theorem deploy_no_throw_when_not_running_witness :
    isDeploymentRunning st0 = false ∧
    ∃ r, (deploy st0 fs1 "proj" .manual none o0).2.2 = Except.ok r ∧
      r.finishedAt = some o0.tEnd ∧
      (r.status = .success ∨ r.status = .failed) ∧
      (r.status = .failed → ∃ m, r.error = some m ∧
        (st0.hasEmitter = true →
          ((deploy st0 fs1 "proj" .manual none o0).2.1).getLast? =
            some (mkEvent .deployment_failed o0.deploymentId (some "failed") none (some m)))) :=
  ⟨rfl, deploy_no_throw_when_not_running st0 fs1 "proj" .manual none o0 rfl⟩

/-- C5: saving any well-formed configuration and reading it back yields
the default configuration merged with the saved one, stored fields
winning — which, the defaults having no optional fields, is the saved
configuration itself. -/
theorem config_round_trip (fs : FileSys) (p : String) (cfg : DeploymentConfig) :
    getDeploymentConfig (saveDeploymentConfig fs p cfg) p =
      mergeConfig DEFAULT_DEPLOYMENT_CONFIG cfg ∧
    mergeConfig DEFAULT_DEPLOYMENT_CONFIG cfg = cfg := by
  constructor
  · simp [getDeploymentConfig, saveDeploymentConfig]
  · rcases cfg with ⟨v, a, b, d, e, h, t⟩
    cases e <;> cases h <;> cases t <;> rfl

/-- C6: `executeCommand` always resolves and never throws: a spawn
failure resolves to a failure carrying the underlying error message;
exit code 0 resolves to success, any non-zero exit code to a failure
with `error = "Exit code: <code>"`; and in the exit cases the output is
the captured stdout with the delimited stderr block appended exactly
when stderr was non-empty. -/
theorem executeCommand_exit_code_semantics (t : Nat) (code : Option Int)
    (sout serr m : String) :
    executeCommand t (.spawnErr m sout) = ⟨false, sout, some m⟩ ∧
    executeCommand t (.exited (some 0) sout serr) =
      ⟨true, sout ++ (if serr = "" then "" else "\n[stderr]\n" ++ serr), none⟩ ∧
    (code ≠ some 0 →
      executeCommand t (.exited code sout serr) =
        ⟨false, sout ++ (if serr = "" then "" else "\n[stderr]\n" ++ serr),
         some ("Exit code: " ++ showExitCode code)⟩) ∧
    (serr = "" → (executeCommand t (.exited code sout serr)).output = sout ++ "") ∧
    (serr ≠ "" → (executeCommand t (.exited code sout serr)).output =
      sout ++ "\n[stderr]\n" ++ serr) := by
  refine ⟨rfl, by simp [executeCommand], ?_, ?_, ?_⟩
  · intro h
    have hb : (code == some 0) = false := beq_eq_false_iff_ne.mpr h
    simp [executeCommand, hb]
  · intro h
    simp [executeCommand, h]
  · intro h
    simp [executeCommand, h]
    exact (String.append_assoc sout "\n[stderr]\n" serr).symm

/-- Witness for C6 at a non-zero exit code. -/
theorem executeCommand_exit_code_semantics_witness :
    (some 2 : Option Int) ≠ some 0 ∧
    executeCommand 5 (.exited (some 2) "out" "err") =
      ⟨false, "out" ++ (if ("err" : String) = "" then "" else "\n[stderr]\n" ++ "err"),
       some ("Exit code: " ++ showExitCode (some 2))⟩ :=
  ⟨by decide,
   (executeCommand_exit_code_semantics 5 (some 2) "out" "err" "m").2.2.1 (by decide)⟩

/-- C7: when the subprocess does not exit within `timeoutMs`,
`executeCommand` resolves to a failure whose error is the
timeout-specific message, having first sent the graceful `SIGTERM`
termination signal to the child (so no subprocess outlives the call);
a step run hitting its timeout accordingly gets a failed `StepResult`
carrying the message with the step's effective timeout. -/
theorem executeCommand_timeout_semantics (t : Nat) (sout : String)
    (s : DeploymentStep) (d : Nat) :
    executeCommand t (.timedOut sout) =
      ⟨false, sout, some ("Command timed out after " ++ toString t ++ "ms")⟩ ∧
    killSignals (.timedOut sout) = ["SIGTERM"] ∧
    executeStep s ⟨.timedOut sout, d⟩ =
      ⟨s.name, .failed, sout,
       some ("Command timed out after " ++ toString (orDefault s.timeout 300000) ++ "ms"),
       d⟩ :=
  ⟨rfl, rfl, rfl⟩

/-- C8: `waitForUrl` returns true exactly when some GET issued before
the deadline receives a response with status < 500 (including non-2xx),
and false when the deadline elapses with no qualifying response; it
never throws — a connection error is one more non-qualifying attempt,
retried after the `intervalMs` sleep. -/
theorem waitForUrl_reachable_iff (probe : Nat → Option Nat) (dur : Nat → Nat)
    (T I : Nat) (hI : 1 ≤ I) :
    (waitForUrl probe dur T I = true ↔
      ∃ k, attemptTime dur I k < T ∧ probeQualifies probe k = true) ∧
    (∀ s, respReachable s = true ↔ s < 500) := by
  constructor
  · rw [waitForUrl, getD_false_iff]
    have h := waitAux_true_iff probe dur T I hI (T + 1) 0 0 (by omega)
    simpa [attemptTime] using h
  · intro s
    simp [respReachable]
    omega

/-- Witness for C8 at a concrete probe. -/
theorem waitForUrl_reachable_iff_witness :
    waitForUrl (fun _ => some 404) (fun _ => 0) 10 2 = true ↔
      ∃ k, attemptTime (fun _ => 0) 2 k < 10 ∧
        probeQualifies (fun _ => some 404) k = true :=
  (waitForUrl_reachable_iff (fun _ => some 404) (fun _ => 0) 10 2 (by decide)).1

/-- C9: an E2E run that reaches its command reports `passed`/`failed`/
`skipped` counts exactly when the Playwright-format pattern matches the
captured output, leaves them all unset otherwise, and its status is
`passed` exactly when the command succeeded (exit code 0); on the
specimen output "12 passed, 3 failed, 1 skipped" the pattern yields
`(12, 3, 1)`. -/
theorem e2e_count_parsing (cfg : DeploymentConfig) (o : Oracle) (ec : E2ETestConfig)
    (hec : cfg.e2eTests = some ec)
    (hwait : ec.waitForUrl = none ∨
      waitForUrl o.e2eProbe o.e2eDur (orDefault ec.waitTimeout 60000) 2000 = true) :
    (∀ n m k, matchCounts (executeCommand (orDefault ec.timeout 600000) o.e2eProc).output
        = some (n, m, k) →
      (runE2ETests cfg o).passed = some n ∧ (runE2ETests cfg o).failed = some m ∧
      (runE2ETests cfg o).skipped = some k) ∧
    (matchCounts (executeCommand (orDefault ec.timeout 600000) o.e2eProc).output = none →
      (runE2ETests cfg o).passed = none ∧ (runE2ETests cfg o).failed = none ∧
      (runE2ETests cfg o).skipped = none) ∧
    ((runE2ETests cfg o).status = .passed ↔
      (executeCommand (orDefault ec.timeout 600000) o.e2eProc).success = true) ∧
    matchCounts "12 passed, 3 failed, 1 skipped" = some (12, 3, 1) := by
  have hrun : runE2ETests cfg o =
      ⟨if (executeCommand (orDefault ec.timeout 600000) o.e2eProc).success then .passed
          else .failed,
       (executeCommand (orDefault ec.timeout 600000) o.e2eProc).output,
       (executeCommand (orDefault ec.timeout 600000) o.e2eProc).error,
       o.e2eDurMs,
       (matchCounts (executeCommand (orDefault ec.timeout 600000) o.e2eProc).output).map
         (fun c => c.1),
       (matchCounts (executeCommand (orDefault ec.timeout 600000) o.e2eProc).output).map
         (fun c => c.2.1),
       (matchCounts (executeCommand (orDefault ec.timeout 600000) o.e2eProc).output).map
         (fun c => c.2.2)⟩ := by
    rcases hwf : ec.waitForUrl with _ | u
    · simp [runE2ETests, hec, hwf]
    · rcases hwait with hw | hw
      · rw [hwf] at hw
        exact absurd hw (by simp)
      · simp [runE2ETests, hec, hwf, hw]
  rw [hrun]
  refine ⟨?_, ?_, ?_, by decide⟩
  · intro n m k hm
    simp [hm]
  · intro hm
    simp [hm]
  · cases hs : (executeCommand (orDefault ec.timeout 600000) o.e2eProc).success <;> simp [hs]

/-- Witness for C9 on a command emitting the specimen counts line. -/
theorem e2e_count_parsing_witness :
    (runE2ETests cfgE2E o0).passed = some 12 ∧ (runE2ETests cfgE2E o0).failed = some 3 ∧
    (runE2ETests cfgE2E o0).skipped = some 1 :=
  (e2e_count_parsing cfgE2E o0 ecFix rfl (Or.inl rfl)).1 12 3 1 (by decide)

lemma getD_append_self_of_len {α : Type} (l1 l2 : List α) (x d : α) (i : Nat)
    (h : l1.length = i) : (l1 ++ x :: l2).getD i d = x := by
  subst h
  exact getD_append_self l1 l2 x d

lemma getD_append_len_succ_of_len {α : Type} (l1 l2 : List α) (x d : α) (i : Nat)
    (h : l1.length = i) : (l1 ++ x :: l2).getD (i + 1) d = l2.getD 0 d := by
  subst h
  exact getD_append_len_succ l1 l2 x d

lemma getD_mem_of_lt {α : Type} (l : List α) (i : Nat) (d : α) (h : i < l.length) :
    l.getD i d ∈ l := by
  rw [List.getD_eq_getElem l d h]
  exact List.getElem_mem h

lemma getD_append_left {α : Type} :
    ∀ (l1 l2 : List α) (i : Nat) (d : α), i < l1.length →
      (l1 ++ l2).getD i d = l1.getD i d := by
  intro l1
  induction l1 with
  | nil => intro l2 i d h; simp at h
  | cons a l ih =>
    intro l2 i d h
    cases i with
    | zero => rfl
    | succ i => simpa using ih l2 i d (by simpa using h)

/-- C2 (amended): in a run not subject to a concurrent
`cancelDeployment`, every emitted event carries the run's deployment id,
any event that is followed by another event is neither
`deployment_completed` nor `deployment_failed`, and — when the guard
passes and an emitter is attached — the last event is the terminal one.
(Under a mid-flight cancellation the cancellation's `deployment_failed`
is followed by further events of the same id; see the counterexample.) -/
theorem terminal_event_last_without_cancel (st : ServiceState) (fs : FileSys)
    (p : String) (tr : Trigger) (fids : Option (List String)) (o : Oracle) :
    (∀ e ∈ (deploy st fs p tr fids o).2.1, e.deploymentId = o.deploymentId) ∧
    (∀ i j : Nat, i < j → j < ((deploy st fs p tr fids o).2.1).length →
      (((deploy st fs p tr fids o).2.1).getD i dfltEvent).type ≠
          EventType.deployment_completed ∧
      (((deploy st fs p tr fids o).2.1).getD i dfltEvent).type ≠
          EventType.deployment_failed) ∧
    (isDeploymentRunning st = false → st.hasEmitter = true →
      ∃ e, ((deploy st fs p tr fids o).2.1).getLast? = some e ∧
        (e.type = EventType.deployment_completed ∨
          e.type = EventType.deployment_failed) ∧
        e.deploymentId = o.deploymentId) := by
  by_cases hrun : isDeploymentRunning st = true
  · have hdep : deploy st fs p tr fids o =
        (st, [], .error "A deployment is already in progress") := by
      simp [deploy, hrun]
    rw [hdep]
    refine ⟨by simp, by simp, ?_⟩
    intro hfalse
    rw [hfalse] at hrun
    exact absurd hrun (by simp)
  · have h' : isDeploymentRunning st = false := by simpa using hrun
    rw [deploy_not_running_eq st fs p tr fids o h']
    dsimp only
    by_cases hem : st.hasEmitter = true
    · have hev : deployedEvents st fs p tr fids o =
          (mkEvent .deployment_started (initialResult o tr fids).id (some "building") none none ::
            (deployBody (getDeploymentConfig fs p) (initialResult o tr fids) o).2.1) ++
          [deployedTerminalEvent fs p tr fids o] := by
        simp [deployedEvents, hem]
      rw [hev]
      have hTid : (deployedTerminalEvent fs p tr fids o).deploymentId = o.deploymentId := by
        unfold deployedTerminalEvent
        exact (finalize_snd_id o _ _).trans ((deployBody_fst_id _ _ o).trans rfl)
      refine ⟨?_, ?_, ?_⟩
      · intro e he
        rcases List.mem_append.mp he with h1 | h2
        · rcases List.mem_cons.mp h1 with rfl | h3
          · rfl
          · exact ((mem_deployBody_events _ _ o e h3).1).trans rfl
        · rw [List.mem_singleton.mp h2]
          exact hTid
      · intro i j hij hj
        have hi1 : i < (mkEvent .deployment_started (initialResult o tr fids).id
            (some "building") none none ::
            (deployBody (getDeploymentConfig fs p) (initialResult o tr fids) o).2.1).length := by
          rw [List.length_append] at hj
          simp only [List.length_singleton] at hj
          omega
        rw [getD_append_left _ _ i _ hi1]
        have hmem := getD_mem_of_lt _ i dfltEvent hi1
        rcases List.mem_cons.mp hmem with heq | h3
        · rw [heq]
          exact ⟨by simp [mkEvent], by simp [mkEvent]⟩
        · exact ⟨(mem_deployBody_events _ _ o _ h3).2.1,
                 (mem_deployBody_events _ _ o _ h3).2.2⟩
      · intro _ _
        refine ⟨deployedTerminalEvent fs p tr fids o, List.getLast?_concat _, ?_, hTid⟩
        unfold deployedTerminalEvent
        exact finalize_snd_type o _ _
    · have hev : deployedEvents st fs p tr fids o = [] := by
        simp [deployedEvents, hem]
      rw [hev]
      refine ⟨by simp, by simp, ?_⟩
      intro _ hemT
      exact absurd hemT hem

/-- Witness for the amended C2: in a concrete un-cancelled run, the
event at position 0 (which has events after it) is not terminal. -/
theorem terminal_event_last_without_cancel_witness :
    (((deploy st0 fs1 "proj" .manual none o0).2.1).getD 0 dfltEvent).type ≠
        EventType.deployment_completed ∧
    (((deploy st0 fs1 "proj" .manual none o0).2.1).getD 0 dfltEvent).type ≠
        EventType.deployment_failed :=
  (terminal_event_last_without_cancel st0 fs1 "proj" .manual none o0).2.1 0 1
    (by decide) (by decide)

/-- C2 counterexample: with `cancelDeployment` invoked while the run
awaits its first build step's command, the cancellation's
`deployment_failed` (position 2 of the observed stream) is followed by a
`build_step_completed` (position 3) carrying the same deployment id — so
`deployment_failed` is not the last event for that id, contradicting the
claim's "including when cancelDeployment() is called while the run is
still in flight". -/
theorem terminal_event_not_last_under_cancel :
    ((deployTraceCancelInFirstBuildStep st0 fs1 "proj" .manual none o0 "t9").getD 2
        dfltEvent).type = EventType.deployment_failed ∧
    ((deployTraceCancelInFirstBuildStep st0 fs1 "proj" .manual none o0 "t9").getD 3
        dfltEvent).type = EventType.build_step_completed ∧
    ((deployTraceCancelInFirstBuildStep st0 fs1 "proj" .manual none o0 "t9").getD 2
        dfltEvent).deploymentId =
      ((deployTraceCancelInFirstBuildStep st0 fs1 "proj" .manual none o0 "t9").getD 3
        dfltEvent).deploymentId ∧
    3 < (deployTraceCancelInFirstBuildStep st0 fs1 "proj" .manual none o0 "t9").length := by
  refine ⟨rfl, rfl, rfl, by decide⟩

/-- C4: steps run strictly in list order.  If build step `i` fails with
`continueOnError` unset, the recorded `buildResults` are exactly the
results of steps 0..i, no later step of the run executes (deploy phase
untouched, no E2E result) and the run ends `failed` with an error naming
step `i` — and likewise in the deploy phase once the build phase is
clean.  If the failing step has `continueOnError` set, its failed
`StepResult` is recorded in place, the loop proceeds to the next step
and — when no fatal failure occurs at all — to the subsequent phases. -/
theorem phase_step_order_and_abort (st : ServiceState) (fs : FileSys) (p : String)
    (tr : Trigger) (fids : Option (List String)) (o : Oracle) (i : Nat) :
    (isDeploymentRunning st = false →
      i < (getDeploymentConfig fs p).buildSteps.length →
      (∀ j, j < i → stepFatal ((getDeploymentConfig fs p).buildSteps.getD j default)
          (o.buildRuns j) = false) →
      (executeStep ((getDeploymentConfig fs p).buildSteps.getD i default)
          (o.buildRuns i)).status = .failed →
      ((getDeploymentConfig fs p).buildSteps.getD i default).continueOnError.getD false
          = false →
      ∃ r, (deploy st fs p tr fids o).2.2 = Except.ok r ∧
        r.buildResults =
          phaseRes o.buildRuns ((getDeploymentConfig fs p).buildSteps.take i) 0 ++
            [executeStep ((getDeploymentConfig fs p).buildSteps.getD i default)
              (o.buildRuns i)] ∧
        r.buildResults.length = i + 1 ∧
        r.deployResults = [] ∧ r.e2eResult = none ∧ r.status = .failed ∧
        r.error = some ("Build step failed: " ++
          ((getDeploymentConfig fs p).buildSteps.getD i default).name)) ∧
    ((i < (getDeploymentConfig fs p).buildSteps.length →
      (∀ j, j < i → stepFatal ((getDeploymentConfig fs p).buildSteps.getD j default)
          (o.buildRuns j) = false) →
      (executeStep ((getDeploymentConfig fs p).buildSteps.getD i default)
          (o.buildRuns i)).status = .failed →
      ((getDeploymentConfig fs p).buildSteps.getD i default).continueOnError.getD false
          = true →
      (runPhase .build o.deploymentId o.buildRuns
          (getDeploymentConfig fs p).buildSteps 0).1.getD i default =
        executeStep ((getDeploymentConfig fs p).buildSteps.getD i default)
          (o.buildRuns i) ∧
      (i + 1 < (getDeploymentConfig fs p).buildSteps.length →
        (runPhase .build o.deploymentId o.buildRuns
            (getDeploymentConfig fs p).buildSteps 0).1.getD (i + 1) default =
          executeStep ((getDeploymentConfig fs p).buildSteps.getD (i + 1) default)
            (o.buildRuns (i + 1))) ∧
      ((∀ j, j < (getDeploymentConfig fs p).buildSteps.length →
          stepFatal ((getDeploymentConfig fs p).buildSteps.getD j default)
            (o.buildRuns j) = false) →
        (runPhase .build o.deploymentId o.buildRuns
            (getDeploymentConfig fs p).buildSteps 0).2.2 = none ∧
        (isDeploymentRunning st = false →
          ∃ r, (deploy st fs p tr fids o).2.2 = Except.ok r ∧
            r.buildResults = phaseRes o.buildRuns (getDeploymentConfig fs p).buildSteps 0 ∧
            r.deployResults = (runPhase .deploy o.deploymentId o.deployRuns
              (getDeploymentConfig fs p).deploySteps 0).1)))) ∧
    (isDeploymentRunning st = false →
      (∀ j, j < (getDeploymentConfig fs p).buildSteps.length →
        stepFatal ((getDeploymentConfig fs p).buildSteps.getD j default)
          (o.buildRuns j) = false) →
      i < (getDeploymentConfig fs p).deploySteps.length →
      (∀ j, j < i → stepFatal ((getDeploymentConfig fs p).deploySteps.getD j default)
          (o.deployRuns j) = false) →
      (executeStep ((getDeploymentConfig fs p).deploySteps.getD i default)
          (o.deployRuns i)).status = .failed →
      ((getDeploymentConfig fs p).deploySteps.getD i default).continueOnError.getD false
          = false →
      ∃ r, (deploy st fs p tr fids o).2.2 = Except.ok r ∧
        r.buildResults = phaseRes o.buildRuns (getDeploymentConfig fs p).buildSteps 0 ∧
        r.deployResults =
          phaseRes o.deployRuns ((getDeploymentConfig fs p).deploySteps.take i) 0 ++
            [executeStep ((getDeploymentConfig fs p).deploySteps.getD i default)
              (o.deployRuns i)] ∧
        r.e2eResult = none ∧ r.status = .failed ∧
        r.error = some ("Deploy step failed: " ++
          ((getDeploymentConfig fs p).deploySteps.getD i default).name)) := by
  refine ⟨?_, ?_, ?_⟩
  · -- fatal abort in the build phase
    intro hrun hi hprev hfail hco
    have hfatal : stepFatal ((getDeploymentConfig fs p).buildSteps.getD i default)
        (o.buildRuns i) = true := by
      unfold stepFatal
      rw [hfail, hco]
      rfl
    have hsp := runPhase_split_at .build (initialResult o tr fids).id o.buildRuns
      (getDeploymentConfig fs p).buildSteps i hi hprev
    rw [runPhase_fatal_cons _ _ _ _ _ _ hfatal] at hsp
    dsimp only at hsp
    have hbody := deployBody_build_err (getDeploymentConfig fs p)
      (initialResult o tr fids) o _ _ _ hsp
    rw [deploy_not_running_eq st fs p tr fids o hrun]
    dsimp only
    refine ⟨_, rfl, ?_⟩
    unfold deployedResult
    rw [hbody]
    dsimp only
    refine ⟨by simp [finalize], ?_, by simp [finalize, initialResult],
        by simp [finalize, initialResult], by simp [finalize], by simp [finalize, phaseFailMsg]⟩
    simp only [finalize]
    rw [List.length_append, phaseRes_length, List.length_take]
    simp
    omega
  · -- continue-on-error at build step i
    intro hi hprev hfail hcoT
    have hnf : stepFatal ((getDeploymentConfig fs p).buildSteps.getD i default)
        (o.buildRuns i) = false := by
      unfold stepFatal
      rw [hcoT]
      simp
    have hsp := runPhase_split_at .build o.deploymentId o.buildRuns
      (getDeploymentConfig fs p).buildSteps i hi hprev
    rw [runPhase_nonfatal_cons _ _ _ _ _ _ hnf] at hsp
    dsimp only at hsp
    have hl : (phaseRes o.buildRuns ((getDeploymentConfig fs p).buildSteps.take i) 0).length
        = i := by
      rw [phaseRes_length, List.length_take]
      omega
    refine ⟨?_, ?_, ?_⟩
    · rw [hsp]
      exact getD_append_self_of_len _ _ _ _ i hl
    · intro hi1
      have hdrop1 : (getDeploymentConfig fs p).buildSteps.drop (i + 1) =
          (getDeploymentConfig fs p).buildSteps.getD (i + 1) default ::
            (getDeploymentConfig fs p).buildSteps.drop (i + 1 + 1) := by
        rw [List.getD_eq_getElem _ default hi1]
        exact List.drop_eq_getElem_cons hi1
      rw [hsp, hdrop1, getD_append_len_succ_of_len _ _ _ _ i hl, runPhase_fst_getD_zero]
    · intro hall
      have hclean := runPhase_all_nonfatal .build o.deploymentId o.buildRuns
        (getDeploymentConfig fs p).buildSteps hall
      refine ⟨by rw [hclean], ?_⟩
      intro hrun
      have hclean' : runPhase .build (initialResult o tr fids).id o.buildRuns
          (getDeploymentConfig fs p).buildSteps 0 =
          (phaseRes o.buildRuns (getDeploymentConfig fs p).buildSteps 0,
           phaseEvs .build (initialResult o tr fids).id o.buildRuns
             (getDeploymentConfig fs p).buildSteps 0, none) :=
        runPhase_all_nonfatal .build (initialResult o tr fids).id o.buildRuns
          (getDeploymentConfig fs p).buildSteps hall
      rw [deploy_not_running_eq st fs p tr fids o hrun]
      dsimp only
      refine ⟨_, rfl, ?_, ?_⟩
      · unfold deployedResult
        rw [finalize_fst_buildResults, deployBody_fst_buildResults, hclean']
      · unfold deployedResult
        rw [finalize_fst_deployResults,
            deployBody_fst_deployResults _ _ _ (by rw [hclean'])]
        rfl
  · -- fatal abort in the deploy phase after a clean build phase
    intro hrun hallb hi hprev hfail hco
    have hfatal : stepFatal ((getDeploymentConfig fs p).deploySteps.getD i default)
        (o.deployRuns i) = true := by
      unfold stepFatal
      rw [hfail, hco]
      rfl
    have hb := runPhase_all_nonfatal .build (initialResult o tr fids).id o.buildRuns
      (getDeploymentConfig fs p).buildSteps hallb
    have hsp := runPhase_split_at .deploy (initialResult o tr fids).id o.deployRuns
      (getDeploymentConfig fs p).deploySteps i hi hprev
    rw [runPhase_fatal_cons _ _ _ _ _ _ hfatal] at hsp
    dsimp only at hsp
    have hbody := deployBody_deploy_err (getDeploymentConfig fs p)
      (initialResult o tr fids) o _ _ _ _ _ hb hsp
    rw [deploy_not_running_eq st fs p tr fids o hrun]
    dsimp only
    refine ⟨_, rfl, ?_⟩
    unfold deployedResult
    rw [hbody]
    dsimp only
    exact ⟨by simp [finalize], by simp [finalize], by simp [finalize, initialResult],
        by simp [finalize], by simp [finalize, phaseFailMsg]⟩

/-- Witness for C4: a concrete run whose first build step exits 2
refuses to run the second step and ends failed naming the first. -/
theorem phase_step_order_and_abort_witness :
    ∃ r, (deploy st0 fs2 "proj" .manual none oFail).2.2 = Except.ok r ∧
      r.buildResults =
        phaseRes oFail.buildRuns ((getDeploymentConfig fs2 "proj").buildSteps.take 0) 0 ++
          [executeStep ((getDeploymentConfig fs2 "proj").buildSteps.getD 0 default)
            (oFail.buildRuns 0)] ∧
      r.buildResults.length = 0 + 1 ∧
      r.deployResults = [] ∧ r.e2eResult = none ∧ r.status = .failed ∧
      r.error = some ("Build step failed: " ++
        ((getDeploymentConfig fs2 "proj").buildSteps.getD 0 default).name) :=
  (phase_step_order_and_abort st0 fs2 "proj" .manual none oFail 0).1 rfl (by decide)
    (by intro j hj; omega) (by decide) (by decide)

/-- C10: once the build phase completes, `deploy` emits
`deployment_started` a second time — with `data.status = 'deploying'` —
on entering the deploy phase (there is no distinct deploy-phase-entry
event type), so the run's stream contains exactly two
`deployment_started` events with the same deployment id. -/
theorem deployment_started_emitted_twice (st : ServiceState) (fs : FileSys)
    (p : String) (tr : Trigger) (fids : Option (List String)) (o : Oracle)
    (hrun : isDeploymentRunning st = false) (hem : st.hasEmitter = true)
    (hb : (runPhase .build o.deploymentId o.buildRuns
        (getDeploymentConfig fs p).buildSteps 0).2.2 = none) :
    ((deploy st fs p tr fids o).2.1).filter isStartedEv =
      [ mkEvent .deployment_started o.deploymentId (some "building") none none,
        mkEvent .deployment_started o.deploymentId (some "deploying") none none ] := by
  rw [deploy_not_running_eq st fs p tr fids o hrun]
  dsimp only
  have hev : deployedEvents st fs p tr fids o =
      (mkEvent .deployment_started (initialResult o tr fids).id (some "building") none none ::
        (deployBody (getDeploymentConfig fs p) (initialResult o tr fids) o).2.1) ++
      [deployedTerminalEvent fs p tr fids o] := by
    simp [deployedEvents, hem]
  rw [hev, List.filter_append, List.filter_cons]
  have hb' : (runPhase .build (initialResult o tr fids).id o.buildRuns
      (getDeploymentConfig fs p).buildSteps 0).2.2 = none := hb
  rw [deployBody_started_filter (getDeploymentConfig fs p) (initialResult o tr fids) o hb']
  have hfT : List.filter isStartedEv [deployedTerminalEvent fs p tr fids o] = [] := by
    have hf : isStartedEv (deployedTerminalEvent fs p tr fids o) = false := by
      unfold isStartedEv deployedTerminalEvent
      rcases finalize_snd_type o
          (deployBody (getDeploymentConfig fs p) (initialResult o tr fids) o).1
          (deployBody (getDeploymentConfig fs p) (initialResult o tr fids) o).2.2
        with h | h <;> rw [h] <;> rfl
    simp [List.filter_cons, hf]
  rw [hfT]
  simp [isStartedEv, mkEvent, initialResult]

/-- Witness for C10 on a concrete single-build-step run. -/
theorem deployment_started_emitted_twice_witness :
    ((deploy st0 fs1 "proj" .manual none o0).2.1).filter isStartedEv =
      [ mkEvent .deployment_started o0.deploymentId (some "building") none none,
        mkEvent .deployment_started o0.deploymentId (some "deploying") none none ] :=
  deployment_started_emitted_twice st0 fs1 "proj" .manual none o0 rfl rfl (by decide)

end Automaker
